import Mathlib

/-!
# Verification of the flood-risk SMS pipeline core

Shallow embedding of the location resolver (`src/geocoder.py`), the location
normalizer (`src/parser/intent_parser.py`) and the risk fusion engine
(`src/risk/engine.py`).

Modelling conventions:
* Python strings are `List Char` (`Str`); `str.lower`, `str.strip` and
  `str.split` are modelled on ASCII text, which is the domain the program
  operates on (SMS location texts and fixed ASCII cache keys).
* Python `float` values carried as data (coordinates, rainfall mm) are
  modelled as `ℚ`; all the program ever does with them is compare against
  constant thresholds and copy them around.
* Python exceptions are `Except Unit`: a function that can raise returns
  `Except Unit α`, and an uncaught exception propagates as `Except.error ()`.
  The on-disk JSON cache is a `CacheFile`: `missing` (no file, `_load_cache`
  returns `{}`), `corrupt` (file exists but `json.load` raises), or
  `stored c` (a readable store holding the association list `c`).
* The geocode providers (`nominatim_geocode`, `opencage_geocode`) already
  catch every transport error internally and return `None` on any failure,
  so they are modelled as total oracles `Str → Option Coord`; an
  "unavailable" provider is the constant-`none` oracle.
* `difflib.get_close_matches(key, keys, n=1, cutoff=0.5)` is modelled by
  `bestMatch`: keep the candidates whose `SequenceMatcher` ratio against the
  key is at least `1/2` and pick the maximum by the pair
  (ratio, lexicographic key), which is what `heapq.nlargest` does on
  `(score, string)` tuples.  The ratio is the matching-blocks ratio
  `2*M/(|a|+|b|)`; the popularity heuristic difflib switches on only for
  inputs of length ≥ 200 is not modelled (SMS inputs are far shorter).
-/

set_option linter.unusedVariables false

namespace FloodPH

/-- Python strings, modelled as lists of characters. -/
abbrev Str := List Char

/-- ASCII lower-casing of one character (`str.lower` on ASCII text). -/
def lowerChar (c : Char) : Char :=
  if 65 ≤ c.toNat ∧ c.toNat ≤ 90 then Char.ofNat (c.toNat + 32) else c

/-- Whitespace test used by `str.strip` / `str.split` (ASCII whitespace). -/
def isWs (c : Char) : Bool :=
  c = ' ' ∨ c = '\t' ∨ c = '\n' ∨ c = '\r'

/-- `str.lower` on ASCII text. -/
def pyLower (s : Str) : Str := s.map lowerChar

/-- `str.strip`: drop leading and trailing whitespace. -/
def pyStrip (s : Str) : Str :=
  ((s.dropWhile isWs).reverse.dropWhile isWs).reverse

/-- Worker for `pySplit`: `w` is the current word accumulated in reverse. -/
def pySplitGo : Str → Str → List Str
  | [], w => if w.isEmpty then [] else [w.reverse]
  | c :: cs, w =>
    if isWs c then
      if w.isEmpty then pySplitGo cs [] else w.reverse :: pySplitGo cs []
    else
      pySplitGo cs (c :: w)

/-- `str.split()` with no argument: split on whitespace runs, drop empties. -/
def pySplit (s : Str) : List Str := pySplitGo s []

/-- `" ".join(words)`. -/
def joinSpace : List Str → Str
  | [] => []
  | [w] => w
  | w :: ws => w ++ ' ' :: joinSpace ws

/-- `" ".join(text.split())`: collapse internal whitespace runs. -/
def collapseWs (s : Str) : Str := joinSpace (pySplit s)

/--
The key normalization the geocoder itself applies before every cache access:
`location.lower().strip()` (`lookup_cache`, `save_to_cache` and the `clean`
local of `get_coordinates` in `src/geocoder.py`).
-/
def geoKey (s : Str) : Str := pyStrip (pyLower s)

/-- One step of the "barangay" canonicalization loop in `normalize_location`:
`if text.startswith(p): text = "brgy " + text[len(p):]`. -/
def fixOne (p : Str) (t : Str) : Str :=
  if p.isPrefixOf t then "brgy ".toList ++ t.drop p.length else t

/-- The `for prefix in ("barangay ", "bgy ", "bgy. ")` loop of
`normalize_location` in `src/parser/intent_parser.py`. -/
def fixBrgy (t : Str) : Str :=
  fixOne "bgy. ".toList (fixOne "bgy ".toList (fixOne "barangay ".toList t))

/-- `normalize_location` from `src/parser/intent_parser.py`:
lower-case, strip, canonicalize barangay spellings, collapse whitespace. -/
def normalize_location (raw : Str) : Str :=
  collapseWs (fixBrgy (pyStrip (pyLower raw)))

/-! ## Risk engine (`src/risk/engine.py`) -/

/-- Symbolic form of the `rain_detail` human-readable string; the numeric
formatting of the Python f-strings is abstracted into the raw values. -/
inductive RainDetail where
  | pagasaDetail (mm : ℚ) (openmeteo6h : Option ℚ)
  | openMeteoDetail (mm6 : ℚ) (mm3 : Option ℚ)
  | noData
  deriving DecidableEq, Repr

/-- `RiskAssessment` dataclass from `src/risk/engine.py`. -/
structure RiskAssessment where
  tier : String
  score : Int
  susceptibility : Int
  suscept_label : String
  suscept_source : String
  rain_trigger : Int
  rain_label : String
  rain_source : String
  rain_mm : ℚ
  rain_detail : RainDetail
  forecast_available : Bool
  description : String
  deriving Repr

/-- `classify_rain_pagasa`: PAGASA thresholds, inclusive at 40/80/120 mm. -/
def classify_rain_pagasa (mm : ℚ) : Int × String :=
  if mm ≤ 40 then (0, "Light")
  else if mm ≤ 80 then (1, "Moderate")
  else if mm ≤ 120 then (2, "Heavy")
  else (3, "Intense")

/-- `classify_rain_openmeteo`: 6-hour thresholds, exclusive at 7.5/15/30 mm. -/
def classify_rain_openmeteo (mm_6h : ℚ) : Int × String :=
  if mm_6h < 15/2 then (0, "Light")
  else if mm_6h < 15 then (1, "Moderate")
  else if mm_6h < 30 then (2, "Heavy")
  else (3, "Intense")

/-- `TIER_THRESHOLDS` table from `src/risk/engine.py`. -/
def TIER_THRESHOLDS : List (Int × String × String) :=
  [(0, "SAFE", "No immediate flood risk."),
   (3, "WATCH", "Low flood risk. Stay alert for updates."),
   (6, "WARNING", "Moderate flood risk. Prepare to act."),
   (99, "CRITICAL", "High flood risk. Act immediately.")]

/-- Worker for `scoreToTier`: the `for max_score, tier, desc` loop. -/
def scoreToTierGo (score : Int) : List (Int × String × String) → String × String
  | [] => ("CRITICAL", "High flood risk. Act immediately.")
  | (m, t, d) :: rest => if score ≤ m then (t, d) else scoreToTierGo score rest

/-- `_score_to_tier` from `src/risk/engine.py`. -/
def scoreToTier (score : Int) : String × String :=
  scoreToTierGo score TIER_THRESHOLDS

/-- The data produced by the source-selection branch of `assess_risk`:
trigger, label, source, mm, detail, forecast availability. -/
structure RainSel where
  trigger : Int
  label : String
  source : String
  mm : ℚ
  detail : RainDetail
  avail : Bool

/-- Source-selection branch of `assess_risk` (the `if pagasa_available and
pagasa_mm is not None / elif openmeteo_available and openmeteo_6h_mm is not
None / else` cascade). -/
def selectRain (pagasa_mm : Option ℚ) (pagasa_available : Bool)
    (openmeteo_6h_mm openmeteo_3h_mm : Option ℚ)
    (openmeteo_available : Bool) : RainSel :=
  match pagasa_available, pagasa_mm with
  | true, some mm =>
    let c := classify_rain_pagasa mm
    { trigger := c.1, label := c.2, source := "pagasa", mm := mm,
      detail := RainDetail.pagasaDetail mm
        (match openmeteo_available, openmeteo_6h_mm with
         | true, some v => some v
         | _, _ => none),
      avail := true }
  | _, _ =>
    match openmeteo_available, openmeteo_6h_mm with
    | true, some mm6 =>
      let c := classify_rain_openmeteo mm6
      { trigger := c.1, label := c.2, source := "open-meteo", mm := mm6,
        detail := RainDetail.openMeteoDetail mm6 openmeteo_3h_mm,
        avail := true }
    | _, _ =>
      { trigger := 0, label := "Unknown", source := "none", mm := 0,
        detail := RainDetail.noData, avail := false }

/-- `assess_risk` from `src/risk/engine.py`. -/
def assess_risk (susceptibility : Int) (suscept_label suscept_source : String)
    (pagasa_mm : Option ℚ) (pagasa_available : Bool)
    (openmeteo_6h_mm openmeteo_3h_mm openmeteo_peak_mm : Option ℚ)
    (openmeteo_available : Bool) : RiskAssessment :=
  let sel := selectRain pagasa_mm pagasa_available
      openmeteo_6h_mm openmeteo_3h_mm openmeteo_available
  let score := susceptibility * sel.trigger
  let td := scoreToTier score
  -- degraded-mode override: `if not forecast_available: ...`
  let final :=
    if sel.avail then td
    else if 3 ≤ susceptibility then
      ("WATCH", "Flood-prone area. No forecast data — stay alert.")
    else (td.1, td.2 ++ " (no forecast data)")
  { tier := final.1, score := score, susceptibility := susceptibility,
    suscept_label := suscept_label, suscept_source := suscept_source,
    rain_trigger := sel.trigger, rain_label := sel.label,
    rain_source := sel.source, rain_mm := sel.mm, rain_detail := sel.detail,
    forecast_available := sel.avail, description := final.2 }

/-! ## Geocoder state model (`src/geocoder.py`) -/

/-- A coordinate pair, the payload of cache entries and provider answers. -/
structure Coord where
  lat : ℚ
  lon : ℚ
  deriving DecidableEq, Repr

/-- The in-memory JSON cache: a Python dict, i.e. an insertion-ordered
association list with unique keys. -/
abbrev Cache := List (Str × Coord)

/-- Dict read: first (only) binding of the key. -/
def cacheFind (c : Cache) (k : Str) : Option Coord :=
  (c.find? (fun p => p.1 = k)).map Prod.snd

/-- Dict upsert `cache[key] = value`: replace in place or append. -/
def cacheInsert : Cache → Str → Coord → Cache
  | [], k, v => [(k, v)]
  | (k', v') :: rest, k, v =>
    if k' = k then (k, v) :: rest else (k', v') :: cacheInsert rest k v

/-- State of the on-disk cache file (`locations_cache.json`). -/
inductive CacheFile where
  /-- The file does not exist: `_load_cache` returns `{}`. -/
  | missing
  /-- The file exists but is unreadable or holds malformed JSON:
  `json.load` (or `open`) raises. -/
  | corrupt
  /-- A readable file serializing the dict `c`. -/
  | stored (c : Cache)
  deriving DecidableEq, Repr

/-- `_load_cache` from `src/geocoder.py`: return `{}` when the file is
absent, otherwise `json.load` it — which raises on a corrupt file. -/
def loadCache : CacheFile → Except Unit Cache
  | CacheFile.missing => Except.ok []
  | CacheFile.corrupt => Except.error ()
  | CacheFile.stored c => Except.ok c

/-- `lookup_cache` from `src/geocoder.py`. -/
def lookup_cache (file : CacheFile) (location : Str) : Except Unit (Option Coord) :=
  match loadCache file with
  | Except.error e => Except.error e
  | Except.ok cache => Except.ok (cacheFind cache (geoKey location))

/-- `save_to_cache` from `src/geocoder.py`: re-load the store, upsert the
normalized key, write back. -/
def save_to_cache (file : CacheFile) (location : Str) (lat lon : ℚ) :
    Except Unit CacheFile :=
  match loadCache file with
  | Except.error e => Except.error e
  | Except.ok cache =>
    Except.ok (CacheFile.stored (cacheInsert cache (geoKey location) ⟨lat, lon⟩))

/-! ### difflib similarity (`difflib.SequenceMatcher` / `get_close_matches`) -/

/-- Length of the common run of equal characters at the heads. -/
def runLen : Str → Str → Nat
  | a :: as, b :: bs => if a = b then runLen as bs + 1 else 0
  | _, _ => 0

/-- `SequenceMatcher.find_longest_match` over the full ranges (no junk):
the longest matching block `(i, j, k)`, ties broken by the earliest start in
`a`, then the earliest start in `b`. -/
def findLongest (a b : Str) : Nat × Nat × Nat :=
  (List.range (a.length + 1)).foldl
    (fun best i =>
      (List.range (b.length + 1)).foldl
        (fun best j =>
          let k := runLen (a.drop i) (b.drop j)
          if best.2.2 < k then (i, j, k) else best)
        best)
    (0, 0, 0)

/-- Total size of all matching blocks (`get_matching_blocks` recursion),
with fuel `|a| + |b|`, which bounds the recursion depth. -/
def matchTotal : Nat → Str → Str → Nat
  | 0, _, _ => 0
  | fuel + 1, a, b =>
    let t := findLongest a b
    if t.2.2 = 0 then 0
    else
      matchTotal fuel (a.take t.1) (b.take t.2.1) + t.2.2 +
        matchTotal fuel (a.drop (t.1 + t.2.2)) (b.drop (t.2.1 + t.2.2))

/-- `SequenceMatcher(None, a, b).ratio() = 2*M/(|a|+|b|)` (1 on two empty
strings). -/
def similarity (a b : Str) : ℚ :=
  if a.length + b.length = 0 then 1
  else 2 * (matchTotal (a.length + b.length) a b : ℚ) / (a.length + b.length)

/-- Python string comparison (lexicographic by code point), as used by tuple
comparison inside `heapq.nlargest`. -/
def strLtB : Str → Str → Bool
  | [], [] => false
  | [], _ :: _ => true
  | _ :: _, [] => false
  | a :: as, b :: bs => if a = b then strLtB as bs else decide (a < b)

/-- `difflib.get_close_matches(word, keys, n=1, cutoff=0.5)`: keep candidates
with ratio ≥ 1/2 and return the maximum by the `(ratio, key)` tuple order
(`heapq.nlargest` on `(score, string)` pairs), or `none`. Each candidate `k`
is `seq1` and `word` is `seq2`, as in `difflib`. -/
def bestMatch (word : Str) : List Str → Option (ℚ × Str)
  | [] => none
  | k :: ks =>
    let rest := bestMatch word ks
    let r := similarity k word
    if 1/2 ≤ r then
      match rest with
      | none => some (r, k)
      | some q =>
        if q.1 < r ∨ (r = q.1 ∧ strLtB q.2 k) then some (r, k) else some q
    else rest

/-- Manila, the absolute last-resort default (`DEFAULT_FALLBACK`). -/
def DEFAULT_FALLBACK : Coord × Str :=
  (⟨145995/10000, 1209842/10000⟩, "manila".toList)

/-- Result shape of `find_closest_match`: `{lat, lon, name}`. -/
structure FallbackOut where
  lat : ℚ
  lon : ℚ
  name : Str
  deriving DecidableEq, Repr

/-- `find_closest_match` from `src/geocoder.py`: fuzzy-match the normalized
input against all cache keys; Manila default on an empty cache or when no
key clears the 0.5 cutoff. The dict access `cache[matched_key]` is modelled
fallibly (`Except.error` on a `KeyError`). -/
def find_closest_match (file : CacheFile) (location : Str) :
    Except Unit FallbackOut :=
  match loadCache file with
  | Except.error e => Except.error e
  | Except.ok cache =>
    if cache.isEmpty then
      Except.ok ⟨DEFAULT_FALLBACK.1.lat, DEFAULT_FALLBACK.1.lon, DEFAULT_FALLBACK.2⟩
    else
      match bestMatch (geoKey location) (cache.map Prod.fst) with
      | some rk =>
        match cacheFind cache rk.2 with
        | some c => Except.ok ⟨c.lat, c.lon, rk.2⟩
        | none => Except.error ()
      | none =>
        Except.ok ⟨DEFAULT_FALLBACK.1.lat, DEFAULT_FALLBACK.1.lon, DEFAULT_FALLBACK.2⟩

/-! ### `get_coordinates` -/

/-- The two geocode providers as total oracles: the HTTP clients in
`src/geocoder.py` catch every transport error and return `None`, and
`opencage_geocode` also returns `None` when no API key is configured. -/
structure Providers where
  nominatim : Str → Option Coord
  opencage : Str → Option Coord

/-- Provenance tag of a resolution (`source` field). -/
inductive GeoSource where
  | cache
  | nominatim
  | opencage
  | fallback
  deriving DecidableEq, Repr

/-- Result dict of `get_coordinates`. -/
structure GeoResult where
  lat : ℚ
  lon : ℚ
  source : GeoSource
  approximate : Bool
  matched_to : Option Str
  deriving DecidableEq, Repr

/-- `get_coordinates` from `src/geocoder.py`: cache, then Nominatim, then
OpenCage (each hit persisted), then the closest-match fallback. Uncaught
exceptions (from a corrupt cache file) propagate as `Except.error`. -/
def get_coordinates (P : Providers) (location : Str) (file : CacheFile) :
    Except Unit (GeoResult × CacheFile) :=
  let clean := geoKey location
  match lookup_cache file clean with
  | Except.error e => Except.error e
  | Except.ok (some c) =>
    Except.ok (⟨c.lat, c.lon, GeoSource.cache, false, none⟩, file)
  | Except.ok none =>
    match P.nominatim clean with
    | some c =>
      match save_to_cache file clean c.lat c.lon with
      | Except.error e => Except.error e
      | Except.ok file' =>
        Except.ok (⟨c.lat, c.lon, GeoSource.nominatim, false, none⟩, file')
    | none =>
      match P.opencage clean with
      | some c =>
        match save_to_cache file clean c.lat c.lon with
        | Except.error e => Except.error e
        | Except.ok file' =>
          Except.ok (⟨c.lat, c.lon, GeoSource.opencage, false, none⟩, file')
      | none =>
        match find_closest_match file clean with
        | Except.error e => Except.error e
        | Except.ok closest =>
          Except.ok (⟨closest.lat, closest.lon, GeoSource.fallback, true,
            some closest.name⟩, file)

/-! ## Helper lemmas about the risk engine -/

lemma classify_rain_pagasa_bounds (mm : ℚ) :
    0 ≤ (classify_rain_pagasa mm).1 ∧ (classify_rain_pagasa mm).1 ≤ 3 := by
  unfold classify_rain_pagasa
  split_ifs <;> simp

lemma classify_rain_openmeteo_bounds (mm : ℚ) :
    0 ≤ (classify_rain_openmeteo mm).1 ∧ (classify_rain_openmeteo mm).1 ≤ 3 := by
  unfold classify_rain_openmeteo
  split_ifs <;> simp

lemma selectRain_trigger_bounds (pm : Option ℚ) (pa : Bool)
    (om6 om3 : Option ℚ) (oa : Bool) :
    0 ≤ (selectRain pm pa om6 om3 oa).trigger ∧
      (selectRain pm pa om6 om3 oa).trigger ≤ 3 := by
  unfold selectRain
  rcases pa with _ | _ <;> rcases pm with _ | mm <;>
    rcases oa with _ | _ <;> rcases om6 with _ | mm6 <;>
    simp [classify_rain_pagasa_bounds, classify_rain_openmeteo_bounds]

/-- Claim C2: When `assess_risk` reports `forecast_available = false`, the tier is
forced to WATCH (with the explanatory description) exactly when the
susceptibility level is at least 3, and stays SAFE below 3. -/
theorem C2_degraded_override (s : Int) (sl ss : String)
    (pm : Option ℚ) (pa : Bool) (om6 om3 omp : Option ℚ) (oa : Bool)
    (h : (assess_risk s sl ss pm pa om6 om3 omp oa).forecast_available = false) :
    (3 ≤ s → (assess_risk s sl ss pm pa om6 om3 omp oa).tier = "WATCH" ∧
      (assess_risk s sl ss pm pa om6 om3 omp oa).description =
        "Flood-prone area. No forecast data — stay alert.") ∧
    (s < 3 → (assess_risk s sl ss pm pa om6 om3 omp oa).tier = "SAFE" ∧
      (assess_risk s sl ss pm pa om6 om3 omp oa).score = 0) := by
  unfold assess_risk selectRain at *
  rcases pa with _ | _ <;> rcases pm with _ | mm <;>
    rcases oa with _ | _ <;> rcases om6 with _ | mm6 <;>
    simp_all [scoreToTier, scoreToTierGo, TIER_THRESHOLDS] <;>
    intro hs <;> split_ifs <;> first | rfl | omega

theorem C2_degraded_override_witness :
    (assess_risk 3 "High" "mgb" none false none none none false).tier = "WATCH" ∧
    (assess_risk 1 "Low" "mgb" none false none none none false).tier = "SAFE" :=
  ⟨((C2_degraded_override 3 "High" "mgb" none false none none none false
      (by decide)).1 (by decide)).1,
   ((C2_degraded_override 1 "Low" "mgb" none false none none none false
      (by decide)).2 (by decide)).1⟩

/-- Claim C3: `_score_to_tier` maps score 0 to SAFE, 1–3 to WATCH, 4–6 to WARNING and
7+ to CRITICAL (inclusive upper bounds), and the tier returned by
`assess_risk` is exactly this function of its score except for the
degraded-mode override (no forecast and susceptibility ≥ 3). -/
theorem C3_tier_of_score :
    (∀ score : Int,
      (score = 0 → (scoreToTier score).1 = "SAFE") ∧
      (1 ≤ score ∧ score ≤ 3 → (scoreToTier score).1 = "WATCH") ∧
      (4 ≤ score ∧ score ≤ 6 → (scoreToTier score).1 = "WARNING") ∧
      (7 ≤ score → (scoreToTier score).1 = "CRITICAL")) ∧
    (∀ (s : Int) (sl ss : String) (pm : Option ℚ) (pa : Bool)
        (om6 om3 omp : Option ℚ) (oa : Bool),
      (assess_risk s sl ss pm pa om6 om3 omp oa).tier =
        if (assess_risk s sl ss pm pa om6 om3 omp oa).forecast_available = false
            ∧ 3 ≤ s
        then "WATCH"
        else (scoreToTier (assess_risk s sl ss pm pa om6 om3 omp oa).score).1) := by
  constructor
  · intro score
    refine ⟨?_, ?_, ?_, ?_⟩ <;> intro h <;>
      simp only [scoreToTier, scoreToTierGo, TIER_THRESHOLDS] <;>
      split_ifs <;> first | rfl | omega
  · intro s sl ss pm pa om6 om3 omp oa
    unfold assess_risk selectRain
    rcases pa with _ | _ <;> rcases pm with _ | mm <;>
      rcases oa with _ | _ <;> rcases om6 with _ | mm6 <;>
      simp <;> split_ifs <;> simp_all

theorem C3_tier_of_score_witness :
    (scoreToTier 0).1 = "SAFE" ∧ (scoreToTier 3).1 = "WATCH" ∧
    (scoreToTier 4).1 = "WARNING" ∧ (scoreToTier 12).1 = "CRITICAL" :=
  ⟨(C3_tier_of_score.1 0).1 rfl, (C3_tier_of_score.1 3).2.1 (by decide),
   (C3_tier_of_score.1 4).2.2.1 (by decide), (C3_tier_of_score.1 12).2.2.2 (by decide)⟩

/-- Claim C4: Both rain classifiers are monotonic non-decreasing in mm; the PAGASA
classifier matches the boundary table {0, 40, 40.001, 80, 80.001, 120,
120.001} → {0,0,1,1,2,2,3} (inclusive thresholds), and the Open-Meteo
classifier uses exclusive thresholds 7.5 / 15 / 30. -/
theorem C4_rain_classification :
    (∀ x y : ℚ, x ≤ y →
      (classify_rain_pagasa x).1 ≤ (classify_rain_pagasa y).1) ∧
    (∀ x y : ℚ, x ≤ y →
      (classify_rain_openmeteo x).1 ≤ (classify_rain_openmeteo y).1) ∧
    ((classify_rain_pagasa 0).1 = 0 ∧ (classify_rain_pagasa 40).1 = 0 ∧
     (classify_rain_pagasa (40001/1000)).1 = 1 ∧ (classify_rain_pagasa 80).1 = 1 ∧
     (classify_rain_pagasa (80001/1000)).1 = 2 ∧ (classify_rain_pagasa 120).1 = 2 ∧
     (classify_rain_pagasa (120001/1000)).1 = 3) ∧
    (∀ mm : ℚ,
      (mm < 15/2 → (classify_rain_openmeteo mm).1 = 0) ∧
      (15/2 ≤ mm ∧ mm < 15 → (classify_rain_openmeteo mm).1 = 1) ∧
      (15 ≤ mm ∧ mm < 30 → (classify_rain_openmeteo mm).1 = 2) ∧
      (30 ≤ mm → (classify_rain_openmeteo mm).1 = 3)) := by
  refine ⟨?_, ?_, ?_, ?_⟩
  · intro x y hxy
    unfold classify_rain_pagasa
    split_ifs <;> simp <;> linarith
  · intro x y hxy
    unfold classify_rain_openmeteo
    split_ifs <;> simp <;> linarith
  · refine ⟨?_, ?_, ?_, ?_, ?_, ?_, ?_⟩ <;> norm_num [classify_rain_pagasa]
  · intro mm
    refine ⟨?_, ?_, ?_, ?_⟩ <;> intro h <;>
      simp only [classify_rain_openmeteo] <;> split_ifs <;>
      first | rfl | (exfalso; rcases h with ⟨h1, h2⟩ <;> linarith) |
        (exfalso; linarith)

theorem C4_rain_classification_witness :
    (classify_rain_pagasa 40).1 ≤ (classify_rain_pagasa 41).1 ∧
    (classify_rain_openmeteo 20).1 = 2 :=
  ⟨C4_rain_classification.1 40 41 (by norm_num),
   (C4_rain_classification.2.2.2 20).2.2.1 (by norm_num)⟩

/-- Claim C5: Source selection in `assess_risk`: an available PAGASA signal (flag set
and a value present, as the pipeline always couples them) is classified with
the PAGASA thresholds and reported as source "pagasa"; otherwise an
available Open-Meteo signal is classified with the 6-hour thresholds as
source "open-meteo"; with neither, the trigger is 0 and
`forecast_available` is false. -/
theorem C5_source_selection (s : Int) (sl ss : String) (pm : Option ℚ)
    (pa : Bool) (om6 om3 omp : Option ℚ) (oa : Bool) :
    (∀ mm : ℚ, pa = true → pm = some mm →
      (assess_risk s sl ss pm pa om6 om3 omp oa).rain_trigger =
          (classify_rain_pagasa mm).1 ∧
        (assess_risk s sl ss pm pa om6 om3 omp oa).rain_source = "pagasa" ∧
        (assess_risk s sl ss pm pa om6 om3 omp oa).rain_mm = mm ∧
        (assess_risk s sl ss pm pa om6 om3 omp oa).forecast_available = true) ∧
    ((pa = false ∨ pm = none) → ∀ mm6 : ℚ, oa = true → om6 = some mm6 →
      (assess_risk s sl ss pm pa om6 om3 omp oa).rain_trigger =
          (classify_rain_openmeteo mm6).1 ∧
        (assess_risk s sl ss pm pa om6 om3 omp oa).rain_source = "open-meteo" ∧
        (assess_risk s sl ss pm pa om6 om3 omp oa).rain_mm = mm6 ∧
        (assess_risk s sl ss pm pa om6 om3 omp oa).forecast_available = true) ∧
    ((pa = false ∨ pm = none) → (oa = false ∨ om6 = none) →
      (assess_risk s sl ss pm pa om6 om3 omp oa).rain_trigger = 0 ∧
        (assess_risk s sl ss pm pa om6 om3 omp oa).rain_source = "none" ∧
        (assess_risk s sl ss pm pa om6 om3 omp oa).forecast_available = false) := by
  unfold assess_risk selectRain
  rcases pa with _ | _ <;> rcases pm with _ | mm <;>
    rcases oa with _ | _ <;> rcases om6 with _ | mm6 <;> simp

theorem C5_source_selection_witness :
    (assess_risk 2 "Med" "mgb" (some 90) true (some 5) none none true).rain_source
        = "pagasa" ∧
    (assess_risk 2 "Med" "mgb" none false (some 20) none none true).rain_source
        = "open-meteo" ∧
    (assess_risk 2 "Med" "mgb" none false none none none false).rain_trigger = 0 :=
  ⟨((C5_source_selection 2 "Med" "mgb" (some 90) true (some 5) none none
      true).1 90 rfl rfl).2.1,
   ((C5_source_selection 2 "Med" "mgb" none false (some 20) none none
      true).2.1 (Or.inl rfl) 20 rfl rfl).2.1,
   ((C5_source_selection 2 "Med" "mgb" none false none none none
      false).2.2 (Or.inl rfl) (Or.inl rfl)).1⟩

/-- Claim C6: The score of every `RiskAssessment` produced by `assess_risk` with a
susceptibility level in 1..4 equals susceptibility × selected trigger and
lies in 0..12. -/
theorem C6_score_product (s : Int) (h1 : 1 ≤ s) (h4 : s ≤ 4)
    (sl ss : String) (pm : Option ℚ) (pa : Bool)
    (om6 om3 omp : Option ℚ) (oa : Bool) :
    (assess_risk s sl ss pm pa om6 om3 omp oa).score =
        (assess_risk s sl ss pm pa om6 om3 omp oa).susceptibility *
          (assess_risk s sl ss pm pa om6 om3 omp oa).rain_trigger ∧
      (assess_risk s sl ss pm pa om6 om3 omp oa).susceptibility = s ∧
      0 ≤ (assess_risk s sl ss pm pa om6 om3 omp oa).score ∧
      (assess_risk s sl ss pm pa om6 om3 omp oa).score ≤ 12 := by
  have hb := selectRain_trigger_bounds pm pa om6 om3 oa
  have hscore : (assess_risk s sl ss pm pa om6 om3 omp oa).score =
      s * (selectRain pm pa om6 om3 oa).trigger := rfl
  have hsus : (assess_risk s sl ss pm pa om6 om3 omp oa).susceptibility = s := rfl
  have htrig : (assess_risk s sl ss pm pa om6 om3 omp oa).rain_trigger =
      (selectRain pm pa om6 om3 oa).trigger := rfl
  refine ⟨by rw [hscore, hsus, htrig], hsus, ?_, ?_⟩
  · rw [hscore]
    exact mul_nonneg (by omega) hb.1
  · rw [hscore]
    nlinarith [hb.1, hb.2]

theorem C6_score_product_witness :
    0 ≤ (assess_risk 4 "Very High" "mgb" (some 150) true none none none
        false).score ∧
      (assess_risk 4 "Very High" "mgb" (some 150) true none none none
        false).score ≤ 12 :=
  (C6_score_product 4 (by decide) (by decide) "Very High" "mgb" (some 150)
    true none none none false).2.2

/-! ## String normalization lemmas -/

lemma char_toNat_ofNat (n : Nat) (h : n.isValidChar) :
    (Char.ofNat n).toNat = n := by
  unfold Char.ofNat
  simp only [h, dite_true, Char.ofNatAux, Char.toNat]
  rfl

lemma lowerChar_toNat (c : Char) (h : 65 ≤ c.toNat ∧ c.toNat ≤ 90) :
    (lowerChar c).toNat = c.toNat + 32 := by
  unfold lowerChar
  rw [if_pos h]
  exact char_toNat_ofNat _ (Or.inl (by omega))

lemma lowerChar_eq_self (c : Char)
    (h : ¬(65 ≤ c.toNat ∧ c.toNat ≤ 90)) : lowerChar c = c := by
  unfold lowerChar
  rw [if_neg h]

lemma lowerChar_not_upper (c : Char) :
    ¬(65 ≤ (lowerChar c).toNat ∧ (lowerChar c).toNat ≤ 90) := by
  by_cases h : 65 ≤ c.toNat ∧ c.toNat ≤ 90
  · have := lowerChar_toNat c h
    omega
  · rw [lowerChar_eq_self c h]
    exact h

lemma lowerChar_idem (c : Char) : lowerChar (lowerChar c) = lowerChar c :=
  lowerChar_eq_self _ (lowerChar_not_upper c)

lemma isWs_toNat (c : Char) :
    isWs c = true ↔ c.toNat = 32 ∨ c.toNat = 9 ∨ c.toNat = 10 ∨ c.toNat = 13 := by
  unfold isWs
  simp only [decide_eq_true_eq]
  constructor
  · rintro (h | h | h | h) <;> subst h <;> decide
  · intro h
    have hv : c = Char.ofNat c.toNat := (Char.ofNat_toNat c).symm
    rcases h with h | h | h | h <;> rw [hv, h] <;> decide

lemma isWs_lowerChar (c : Char) : isWs (lowerChar c) = isWs c := by
  by_cases h : 65 ≤ c.toNat ∧ c.toNat ≤ 90
  · have h1 := lowerChar_toNat c h
    have e1 : isWs (lowerChar c) = false := by
      rw [← Bool.not_eq_true, isWs_toNat]
      omega
    have e2 : isWs c = false := by
      rw [← Bool.not_eq_true, isWs_toNat]
      omega
    rw [e1, e2]
  · rw [lowerChar_eq_self c h]

lemma pyLower_idem (s : Str) : pyLower (pyLower s) = pyLower s := by
  simp [pyLower, List.map_map, Function.comp_def, lowerChar_idem]

lemma dropWhile_map_lower (s : Str) :
    (pyLower s).dropWhile isWs = pyLower (s.dropWhile isWs) := by
  induction s with
  | nil => rfl
  | cons c cs ih =>
    simp only [pyLower, List.map_cons, List.dropWhile_cons, isWs_lowerChar]
    by_cases h : isWs c
    · simpa [h] using ih
    · simp [h]

lemma pyLower_reverse (s : Str) : (pyLower s).reverse = pyLower s.reverse := by
  simp [pyLower, List.map_reverse]

lemma pyStrip_pyLower (s : Str) :
    pyStrip (pyLower s) = pyLower (pyStrip s) := by
  unfold pyStrip
  rw [dropWhile_map_lower, pyLower_reverse, dropWhile_map_lower, pyLower_reverse]

lemma dropWhile_dropWhile (p : Char → Bool) (l : Str) :
    (l.dropWhile p).dropWhile p = l.dropWhile p := by
  induction l with
  | nil => rfl
  | cons c cs ih =>
    by_cases h : p c <;> simp [List.dropWhile_cons, h, ih]

lemma dropWhile_head_false (p : Char → Bool) (l : Str) (x : Char)
    (h : (l.dropWhile p).head? = some x) : p x = false := by
  induction l with
  | nil => simp [List.dropWhile] at h
  | cons c cs ih =>
    rw [List.dropWhile_cons] at h
    by_cases hc : p c
    · rw [if_pos hc] at h
      exact ih h
    · rw [if_neg hc] at h
      simp only [List.head?_cons, Option.some.injEq] at h
      subst h
      simpa using hc

lemma getLast?_dropWhile (p : Char → Bool) (l : Str)
    (h : l.dropWhile p ≠ []) : (l.dropWhile p).getLast? = l.getLast? := by
  induction l with
  | nil => simp [List.dropWhile] at h
  | cons c cs ih =>
    rw [List.dropWhile_cons] at h ⊢
    by_cases hc : p c
    · rw [if_pos hc] at h ⊢
      have hcs : cs ≠ [] := by
        rintro rfl
        simp [List.dropWhile] at h
      rw [ih h]
      cases cs with
      | nil => exact absurd rfl hcs
      | cons b bs => rw [List.getLast?_cons_cons]
    · rw [if_neg hc]

lemma strip_eq_self (l : Str)
    (h1 : ∀ x, l.head? = some x → isWs x = false)
    (h2 : ∀ x, l.getLast? = some x → isWs x = false) : pyStrip l = l := by
  have e1 : l.dropWhile isWs = l := by
    cases l with
    | nil => rfl
    | cons c cs =>
      rw [List.dropWhile_cons, if_neg]
      simp [h1 c rfl]
  have e2 : l.reverse.dropWhile isWs = l.reverse := by
    cases hr : l.reverse with
    | nil => rfl
    | cons c cs =>
      rw [List.dropWhile_cons, if_neg]
      have : l.getLast? = some c := by
        rw [← List.head?_reverse, hr, List.head?_cons]
      simp [h2 c this]
  rw [pyStrip, e1, e2, List.reverse_reverse]

lemma pyStrip_head_false (s : Str) (x : Char)
    (h : (pyStrip s).head? = some x) : isWs x = false := by
  unfold pyStrip at h
  rw [List.head?_reverse] at h
  have hne : (s.dropWhile isWs).reverse.dropWhile isWs ≠ [] := by
    rintro he
    rw [he] at h
    simp at h
  rw [getLast?_dropWhile _ _ hne, List.getLast?_reverse] at h
  exact dropWhile_head_false _ _ _ h

lemma pyStrip_getLast_false (s : Str) (x : Char)
    (h : (pyStrip s).getLast? = some x) : isWs x = false := by
  unfold pyStrip at h
  rw [List.getLast?_reverse] at h
  exact dropWhile_head_false _ _ _ h

lemma pyStrip_idem (s : Str) : pyStrip (pyStrip s) = pyStrip s :=
  strip_eq_self _ (pyStrip_head_false s) (pyStrip_getLast_false s)

/-- The geocoder's key normalization is idempotent: looking up an
already-normalized key re-normalizes it to itself. -/
lemma geoKey_idem (s : Str) : geoKey (geoKey s) = geoKey s := by
  unfold geoKey
  rw [pyStrip_pyLower, pyStrip_idem, ← pyStrip_pyLower, pyLower_idem]

/-! ## Cache dictionary lemmas -/

lemma cacheFind_cons_self (k : Str) (v : Coord) (rest : Cache) :
    cacheFind ((k, v) :: rest) k = some v := by
  simp [cacheFind, List.find?_cons]

lemma cacheFind_cons_ne (k k2 : Str) (v : Coord) (rest : Cache)
    (h : k ≠ k2) : cacheFind ((k, v) :: rest) k2 = cacheFind rest k2 := by
  simp [cacheFind, List.find?_cons, h]

lemma cacheFind_insert_self (c : Cache) (k : Str) (v : Coord) :
    cacheFind (cacheInsert c k v) k = some v := by
  induction c with
  | nil => exact cacheFind_cons_self k v []
  | cons p rest ih =>
    obtain ⟨k', v'⟩ := p
    by_cases h : k' = k
    · subst h
      rw [cacheInsert, if_pos rfl]
      exact cacheFind_cons_self k' v rest
    · rw [cacheInsert, if_neg h, cacheFind_cons_ne k' k v' _ h]
      exact ih

lemma cacheFind_insert_ne (c : Cache) (k k2 : Str) (v : Coord)
    (h : k2 ≠ k) : cacheFind (cacheInsert c k v) k2 = cacheFind c k2 := by
  induction c with
  | nil =>
    rw [cacheInsert, cacheFind_cons_ne k k2 v [] (Ne.symm h)]
  | cons p rest ih =>
    obtain ⟨k', v'⟩ := p
    by_cases hk : k' = k
    · subst hk
      rw [cacheInsert, if_pos rfl, cacheFind_cons_ne k' k2 v rest (Ne.symm h),
        cacheFind_cons_ne k' k2 v' rest (Ne.symm h)]
    · rw [cacheInsert, if_neg hk]
      by_cases h2 : k' = k2
      · subst h2
        rw [cacheFind_cons_self, cacheFind_cons_self]
      · rw [cacheFind_cons_ne k' k2 v' _ h2, cacheFind_cons_ne k' k2 v' _ h2, ih]

/-! ## Inversion lemmas for the effectful cache helpers -/

lemma lookup_cache_ok_inv (file : CacheFile) (loc : Str) (o : Option Coord)
    (h : lookup_cache file loc = Except.ok o) :
    ∃ cache, loadCache file = Except.ok cache ∧
      o = cacheFind cache (geoKey loc) := by
  unfold lookup_cache at h
  cases hl : loadCache file with
  | error e => rw [hl] at h; simp at h
  | ok cache =>
    rw [hl] at h
    simp only [Except.ok.injEq] at h
    exact ⟨cache, rfl, h.symm⟩

lemma save_to_cache_ok_inv (file : CacheFile) (loc : Str) (lat lon : ℚ)
    (file' : CacheFile) (h : save_to_cache file loc lat lon = Except.ok file') :
    ∃ cache, loadCache file = Except.ok cache ∧
      file' = CacheFile.stored (cacheInsert cache (geoKey loc) ⟨lat, lon⟩) := by
  unfold save_to_cache at h
  cases hl : loadCache file with
  | error e => rw [hl] at h; simp at h
  | ok cache =>
    rw [hl] at h
    simp only [Except.ok.injEq] at h
    exact ⟨cache, rfl, h.symm⟩

lemma find_closest_match_ok_inv (file : CacheFile) (loc : Str)
    (out : FallbackOut) (h : find_closest_match file loc = Except.ok out) :
    ∃ cache, loadCache file = Except.ok cache := by
  unfold find_closest_match at h
  cases hl : loadCache file with
  | error e => rw [hl] at h; simp at h
  | ok cache => exact ⟨cache, rfl⟩

/-! ## Resolver theorems -/

/-- Claim C1: The spec (and the module's own docstring, "never fails, always
returns coordinates") requires a failed or unreadable cache read to be
treated as a cache miss, but `_load_cache` calls `json.load` with no
exception handling: with a corrupt cache file the resolver raises even
though both provider tiers would answer, while the same call with a merely
missing cache file succeeds. -/
theorem C1_corrupt_cache_read_crashes :
    get_coordinates ⟨fun _ => some ⟨1, 2⟩, fun _ => none⟩ "manila".toList
        CacheFile.corrupt = Except.error () ∧
      get_coordinates ⟨fun _ => some ⟨1, 2⟩, fun _ => none⟩ "manila".toList
        CacheFile.missing =
        Except.ok (⟨1, 2, GeoSource.nominatim, false, none⟩,
          CacheFile.stored [("manila".toList, ⟨1, 2⟩)]) := by
  constructor <;> rfl

/-- Case analysis of a successful `get_coordinates` call: the cache store
was readable, and the output store is unchanged on the cache-hit and
fallback paths and an insert of exactly the resolved key on the two
provider paths. -/
lemma get_coordinates_spec (P : Providers) (raw : Str) (file : CacheFile)
    (r : GeoResult) (file' : CacheFile)
    (h : get_coordinates P raw file = Except.ok (r, file')) :
    ∃ cache, loadCache file = Except.ok cache ∧
      ((r.source = GeoSource.cache ∧ file' = file) ∨
       ((r.source = GeoSource.nominatim ∨ r.source = GeoSource.opencage) ∧
         file' = CacheFile.stored (cacheInsert cache (geoKey raw) ⟨r.lat, r.lon⟩)) ∨
       (r.source = GeoSource.fallback ∧ file' = file)) := by
  simp only [get_coordinates] at h
  split at h
  · exact absurd h (by simp)
  · rename_i c heq
    obtain ⟨cache, hl, _⟩ := lookup_cache_ok_inv _ _ _ heq
    simp only [Except.ok.injEq, Prod.mk.injEq] at h
    obtain ⟨hr, hf⟩ := h
    exact ⟨cache, hl, Or.inl ⟨by rw [← hr], hf.symm⟩⟩
  · rename_i heq
    obtain ⟨cache0, hl0, _⟩ := lookup_cache_ok_inv _ _ _ heq
    split at h
    · split at h
      · exact absurd h (by simp)
      · rename_i c hn file2 heq2
        obtain ⟨cache, hl, hf2⟩ := save_to_cache_ok_inv _ _ _ _ _ heq2
        simp only [Except.ok.injEq, Prod.mk.injEq] at h
        obtain ⟨hr, hf⟩ := h
        refine ⟨cache, hl, Or.inr (Or.inl ⟨Or.inl (by rw [← hr]), ?_⟩)⟩
        rw [← hf, hf2, geoKey_idem, ← hr]
    · split at h
      · split at h
        · exact absurd h (by simp)
        · rename_i c ho file2 heq2
          obtain ⟨cache, hl, hf2⟩ := save_to_cache_ok_inv _ _ _ _ _ heq2
          simp only [Except.ok.injEq, Prod.mk.injEq] at h
          obtain ⟨hr, hf⟩ := h
          refine ⟨cache, hl, Or.inr (Or.inl ⟨Or.inr (by rw [← hr]), ?_⟩)⟩
          rw [← hf, hf2, geoKey_idem, ← hr]
      · split at h
        · exact absurd h (by simp)
        · rename_i ho closest heq2
          obtain ⟨cache, hl⟩ := find_closest_match_ok_inv _ _ _ heq2
          simp only [Except.ok.injEq, Prod.mk.injEq] at h
          obtain ⟨hr, hf⟩ := h
          exact ⟨cache, hl, Or.inr (Or.inr ⟨by rw [← hr], hf.symm⟩)⟩

/-- Claim C9: resolution is idempotent via the cache: when a call resolves
through a geocode provider (Nominatim or OpenCage), a second call with the
same raw text returns the identical coordinates from the cache, whatever
the providers do in between — in particular when both have become
unavailable. -/
theorem C9_idempotent_resolution (P1 : Providers) (raw : Str)
    (file : CacheFile) (r1 : GeoResult) (file1 : CacheFile)
    (h : get_coordinates P1 raw file = Except.ok (r1, file1))
    (hsrc : r1.source = GeoSource.nominatim ∨ r1.source = GeoSource.opencage) :
    ∀ P2 : Providers, get_coordinates P2 raw file1 =
      Except.ok (⟨r1.lat, r1.lon, GeoSource.cache, false, none⟩, file1) := by
  intro P2
  obtain ⟨cache, hl, hcases⟩ := get_coordinates_spec P1 raw file r1 file1 h
  rcases hcases with ⟨hs, _⟩ | ⟨_, hf⟩ | ⟨hs, _⟩
  · rcases hsrc with h1 | h1 <;> rw [hs] at h1 <;> simp at h1
  · subst hf
    simp only [get_coordinates, lookup_cache, loadCache]
    rw [geoKey_idem, cacheFind_insert_self]
  · rcases hsrc with h1 | h1 <;> rw [hs] at h1 <;> simp at h1

theorem C9_idempotent_resolution_witness :
    get_coordinates ⟨fun _ => none, fun _ => none⟩ "manila".toList
      (CacheFile.stored [("manila".toList, ⟨1, 2⟩)]) =
      Except.ok (⟨1, 2, GeoSource.cache, false, none⟩,
        CacheFile.stored [("manila".toList, ⟨1, 2⟩)]) :=
  C9_idempotent_resolution ⟨fun _ => some ⟨1, 2⟩, fun _ => none⟩
    "manila".toList CacheFile.missing
    ⟨1, 2, GeoSource.nominatim, false, none⟩
    (CacheFile.stored [("manila".toList, ⟨1, 2⟩)])
    (by rfl) (Or.inl rfl) ⟨fun _ => none, fun _ => none⟩

/-- Claim C10: a successful `get_coordinates` call writes to the cache store
only on the two provider-success paths, and there it upserts exactly the one
normalized key being resolved with the resolved coordinates; the cache-hit
and fallback paths return the store unchanged, so fallback coordinates are
never persisted. -/
theorem C10_cache_frame (P : Providers) (raw : Str) (file : CacheFile)
    (r : GeoResult) (file' : CacheFile)
    (h : get_coordinates P raw file = Except.ok (r, file')) :
    ((r.source = GeoSource.cache ∨ r.source = GeoSource.fallback) →
      file' = file) ∧
    ((r.source = GeoSource.nominatim ∨ r.source = GeoSource.opencage) →
      ∃ cache, loadCache file = Except.ok cache ∧
        file' = CacheFile.stored (cacheInsert cache (geoKey raw) ⟨r.lat, r.lon⟩) ∧
        cacheFind (cacheInsert cache (geoKey raw) ⟨r.lat, r.lon⟩) (geoKey raw) =
          some ⟨r.lat, r.lon⟩ ∧
        ∀ k : Str, k ≠ geoKey raw →
          cacheFind (cacheInsert cache (geoKey raw) ⟨r.lat, r.lon⟩) k =
            cacheFind cache k) := by
  obtain ⟨cache, hl, hcases⟩ := get_coordinates_spec P raw file r file' h
  constructor
  · intro hs
    rcases hcases with ⟨_, hf⟩ | ⟨hs2, _⟩ | ⟨_, hf⟩
    · exact hf
    · rcases hs with hs | hs <;> rcases hs2 with h2 | h2 <;>
        rw [hs] at h2 <;> simp at h2
    · exact hf
  · intro hs
    rcases hcases with ⟨hs2, _⟩ | ⟨_, hf⟩ | ⟨hs2, _⟩
    · rcases hs with h2 | h2 <;> rw [hs2] at h2 <;> simp at h2
    · exact ⟨cache, hl, hf, cacheFind_insert_self _ _ _,
        fun k hk => cacheFind_insert_ne _ _ _ _ hk⟩
    · rcases hs with h2 | h2 <;> rw [hs2] at h2 <;> simp at h2

theorem C10_cache_frame_witness :
    ∃ cache, loadCache CacheFile.missing = Except.ok cache ∧
      CacheFile.stored [("manila".toList, (⟨1, 2⟩ : Coord))] =
        CacheFile.stored (cacheInsert cache (geoKey "manila".toList) ⟨1, 2⟩) ∧
      cacheFind (cacheInsert cache (geoKey "manila".toList) ⟨1, 2⟩)
          (geoKey "manila".toList) = some ⟨1, 2⟩ ∧
      ∀ k : Str, k ≠ geoKey "manila".toList →
        cacheFind (cacheInsert cache (geoKey "manila".toList) ⟨1, 2⟩) k =
          cacheFind cache k :=
  (C10_cache_frame ⟨fun _ => some ⟨1, 2⟩, fun _ => none⟩ "manila".toList
    CacheFile.missing ⟨1, 2, GeoSource.nominatim, false, none⟩
    (CacheFile.stored [("manila".toList, ⟨1, 2⟩)]) (by rfl)).2 (Or.inl rfl)

/-! ## Fallback matcher lemmas -/

lemma bestMatch_none (word : Str) (ks : List Str)
    (h : bestMatch word ks = none) : ∀ k ∈ ks, similarity k word < 1/2 := by
  induction ks with
  | nil => simp
  | cons a as ih =>
    intro k hk
    simp only [bestMatch] at h
    by_cases ha : (1 : ℚ)/2 ≤ similarity a word
    · rw [if_pos ha] at h
      cases hrest : bestMatch word as <;> rw [hrest] at h <;> dsimp only at h
      · simp at h
      · split_ifs at h
    · rw [if_neg ha] at h
      rcases List.mem_cons.mp hk with rfl | hk2
      · exact not_le.mp ha
      · exact ih h k hk2

lemma bestMatch_some (word : Str) (ks : List Str) (r : ℚ) (k : Str)
    (h : bestMatch word ks = some (r, k)) :
    k ∈ ks ∧ r = similarity k word ∧ 1/2 ≤ r ∧
      ∀ k2 ∈ ks, similarity k2 word ≤ r := by
  induction ks generalizing r k with
  | nil => simp [bestMatch] at h
  | cons a as ih =>
    simp only [bestMatch] at h
    by_cases ha : (1 : ℚ)/2 ≤ similarity a word
    · rw [if_pos ha] at h
      cases hrest : bestMatch word as with
      | none =>
        rw [hrest] at h
        dsimp only at h
        simp only [Option.some.injEq, Prod.mk.injEq] at h
        obtain ⟨hr, hk⟩ := h
        subst hr
        subst hk
        refine ⟨List.mem_cons_self _ _, rfl, ha, ?_⟩
        intro k2 hk2
        rcases List.mem_cons.mp hk2 with rfl | hk2
        · exact le_refl _
        · exact le_trans (le_of_lt (bestMatch_none word as hrest k2 hk2)) ha
      | some q =>
        rw [hrest] at h
        dsimp only at h
        obtain ⟨hq1, hq2, hq3, hq4⟩ := ih q.1 q.2 (by rw [hrest])
        by_cases hcmp : q.1 < similarity a word ∨
            (similarity a word = q.1 ∧ strLtB q.2 a = true)
        · rw [if_pos hcmp] at h
          simp only [Option.some.injEq, Prod.mk.injEq] at h
          obtain ⟨hr, hk⟩ := h
          subst hr
          subst hk
          refine ⟨List.mem_cons_self _ _, rfl, ha, ?_⟩
          intro k2 hk2
          rcases List.mem_cons.mp hk2 with rfl | hk2
          · exact le_refl _
          · have h1 : similarity k2 word ≤ q.1 := hq4 k2 hk2
            rcases hcmp with hc | ⟨hc, _⟩
            · exact le_trans h1 (le_of_lt hc)
            · rw [← hc] at h1
              exact h1
        · rw [if_neg hcmp] at h
          simp only [Option.some.injEq] at h
          subst h
          refine ⟨List.mem_cons_of_mem _ hq1, hq2, hq3, ?_⟩
          intro k2 hk2
          rcases List.mem_cons.mp hk2 with rfl | hk2
          · push_neg at hcmp
            exact hcmp.1
          · exact hq4 k2 hk2
    · rw [if_neg ha] at h
      obtain ⟨hq1, hq2, hq3, hq4⟩ := ih r k h
      refine ⟨List.mem_cons_of_mem _ hq1, hq2, hq3, ?_⟩
      intro k2 hk2
      rcases List.mem_cons.mp hk2 with rfl | hk2
      · exact le_trans (le_of_lt (not_le.mp ha)) hq3
      · exact hq4 k2 hk2

lemma cacheFind_mem_fst (c : Cache) (k : Str) (h : k ∈ c.map Prod.fst) :
    ∃ v, cacheFind c k = some v := by
  induction c with
  | nil => simp at h
  | cons p rest ih =>
    obtain ⟨k', v'⟩ := p
    by_cases hk : k' = k
    · subst hk
      exact ⟨v', cacheFind_cons_self _ _ _⟩
    · rw [cacheFind_cons_ne _ _ _ _ hk]
      apply ih
      simp only [List.map_cons, List.mem_cons] at h
      rcases h with h | h
      · exact absurd h.symm hk
      · exact h

/-- On every readable cache store, `find_closest_match` is total: it
returns the best-scoring cache key whose similarity to the normalized input
is at least 0.5 (a maximizer over all keys), and the hard-coded Manila
default when the cache is empty or no key clears the cutoff — never an
error, never an absent value. -/
lemma find_closest_match_stored_total (cache : Cache) (loc : Str) :
    ∃ out, find_closest_match (CacheFile.stored cache) loc = Except.ok out ∧
      (cache = [] →
        out = ⟨DEFAULT_FALLBACK.1.lat, DEFAULT_FALLBACK.1.lon, DEFAULT_FALLBACK.2⟩) ∧
      ((out.name ∈ cache.map Prod.fst ∧
          1/2 ≤ similarity out.name (geoKey loc) ∧
          ∀ k ∈ cache.map Prod.fst,
            similarity k (geoKey loc) ≤ similarity out.name (geoKey loc)) ∨
       (out = ⟨DEFAULT_FALLBACK.1.lat, DEFAULT_FALLBACK.1.lon, DEFAULT_FALLBACK.2⟩ ∧
          ∀ k ∈ cache.map Prod.fst, similarity k (geoKey loc) < 1/2)) := by
  by_cases hemp : cache.isEmpty
  · have heq : find_closest_match (CacheFile.stored cache) loc =
        Except.ok ⟨DEFAULT_FALLBACK.1.lat, DEFAULT_FALLBACK.1.lon,
          DEFAULT_FALLBACK.2⟩ := by
      unfold find_closest_match loadCache
      dsimp only
      rw [if_pos hemp]
    refine ⟨_, heq, fun _ => rfl, Or.inr ⟨rfl, ?_⟩⟩
    have hc : cache = [] := List.isEmpty_iff.mp hemp
    subst hc
    simp
  · cases hb : bestMatch (geoKey loc) (cache.map Prod.fst) with
    | some rk =>
      obtain ⟨hmem, hr, hge, hmax⟩ :=
        bestMatch_some (geoKey loc) (cache.map Prod.fst) rk.1 rk.2 (by rw [hb])
      obtain ⟨v, hv⟩ := cacheFind_mem_fst cache rk.2 hmem
      have heq : find_closest_match (CacheFile.stored cache) loc =
          Except.ok ⟨v.lat, v.lon, rk.2⟩ := by
        unfold find_closest_match loadCache
        dsimp only
        rw [if_neg hemp, hb]
        dsimp only
        rw [hv]
      refine ⟨_, heq, ?_, Or.inl ⟨hmem, ?_, ?_⟩⟩
      · intro hc
        rw [hc] at hemp
        exact absurd rfl hemp
      · rw [← hr]
        exact hge
      · intro k hk
        rw [← hr]
        exact hmax k hk
    | none =>
      have hlt := bestMatch_none (geoKey loc) (cache.map Prod.fst) hb
      have heq : find_closest_match (CacheFile.stored cache) loc =
          Except.ok ⟨DEFAULT_FALLBACK.1.lat, DEFAULT_FALLBACK.1.lon,
            DEFAULT_FALLBACK.2⟩ := by
        unfold find_closest_match loadCache
        dsimp only
        rw [if_neg hemp, hb]
      refine ⟨_, heq, fun _ => rfl, Or.inr ⟨rfl, hlt⟩⟩

/-- Claim C8: The fallback matcher is meant to never raise and never return
an absent value for any input, and it does behave that way on every
readable store state — missing file included, where it returns the Manila
default — returning the best cache key with similarity ≥ 0.5 or the
default; but it reads the cache through the unguarded `_load_cache`, so on
a corrupt or unreadable store it raises instead of falling back,
contradicting the spec's "this function never fails" (the same unguarded
read recorded for the resolver as a whole). -/
theorem C8_matcher_crash_on_corrupt_store :
    find_closest_match CacheFile.corrupt "marikina".toList =
        Except.error () ∧
    (∀ loc : Str, find_closest_match CacheFile.missing loc =
        Except.ok ⟨DEFAULT_FALLBACK.1.lat, DEFAULT_FALLBACK.1.lon,
          DEFAULT_FALLBACK.2⟩) ∧
    (∀ (cache : Cache) (loc : Str),
      ∃ out, find_closest_match (CacheFile.stored cache) loc = Except.ok out ∧
        (cache = [] →
          out = ⟨DEFAULT_FALLBACK.1.lat, DEFAULT_FALLBACK.1.lon, DEFAULT_FALLBACK.2⟩) ∧
        ((out.name ∈ cache.map Prod.fst ∧
            1/2 ≤ similarity out.name (geoKey loc) ∧
            ∀ k ∈ cache.map Prod.fst,
              similarity k (geoKey loc) ≤ similarity out.name (geoKey loc)) ∨
         (out = ⟨DEFAULT_FALLBACK.1.lat, DEFAULT_FALLBACK.1.lon, DEFAULT_FALLBACK.2⟩ ∧
            ∀ k ∈ cache.map Prod.fst, similarity k (geoKey loc) < 1/2))) :=
  ⟨rfl, fun _ => rfl, find_closest_match_stored_total⟩

theorem C8_matcher_crash_on_corrupt_store_witness :
    ∃ out, find_closest_match (CacheFile.stored []) "anywhere".toList =
        Except.ok out ∧
      (([] : Cache) = [] →
        out = ⟨DEFAULT_FALLBACK.1.lat, DEFAULT_FALLBACK.1.lon, DEFAULT_FALLBACK.2⟩) ∧
      ((out.name ∈ ([] : Cache).map Prod.fst ∧
          1/2 ≤ similarity out.name (geoKey "anywhere".toList) ∧
          ∀ k ∈ ([] : Cache).map Prod.fst,
            similarity k (geoKey "anywhere".toList) ≤
              similarity out.name (geoKey "anywhere".toList)) ∨
       (out = ⟨DEFAULT_FALLBACK.1.lat, DEFAULT_FALLBACK.1.lon, DEFAULT_FALLBACK.2⟩ ∧
          ∀ k ∈ ([] : Cache).map Prod.fst,
            similarity k (geoKey "anywhere".toList) < 1/2)) :=
  C8_matcher_crash_on_corrupt_store.2.2 [] "anywhere".toList

/-! ## Lemmas about `str.split` / `" ".join` and the parser normalization -/

lemma pySplitGo_words (s : Str) : ∀ acc : Str,
    (∀ c ∈ acc, isWs c = false) →
    ∀ w ∈ pySplitGo s acc, w ≠ [] ∧ ∀ c ∈ w, isWs c = false := by
  induction s with
  | nil =>
    intro acc hacc w hw
    simp only [pySplitGo] at hw
    by_cases hae : acc.isEmpty
    · rw [if_pos hae] at hw
      simp at hw
    · rw [if_neg hae] at hw
      simp only [List.mem_singleton] at hw
      subst hw
      refine ⟨?_, ?_⟩
      · intro he
        rw [List.reverse_eq_nil_iff] at he
        rw [he] at hae
        exact hae rfl
      · intro c hc
        exact hacc c (List.mem_reverse.mp hc)
  | cons a as ih =>
    intro acc hacc w hw
    simp only [pySplitGo] at hw
    cases ha : isWs a with
    | true =>
      rw [ha] at hw
      simp only [if_true] at hw
      by_cases hae : acc.isEmpty
      · rw [if_pos hae] at hw
        exact ih [] (by simp) w hw
      · rw [if_neg hae] at hw
        rcases List.mem_cons.mp hw with rfl | hw2
        · refine ⟨?_, ?_⟩
          · intro he
            rw [List.reverse_eq_nil_iff] at he
            rw [he] at hae
            exact hae rfl
          · intro c hc
            exact hacc c (List.mem_reverse.mp hc)
        · exact ih [] (by simp) w hw2
    | false =>
      rw [ha] at hw
      simp only [Bool.false_eq_true, if_false] at hw
      refine ih (a :: acc) ?_ w hw
      intro c hc
      rcases List.mem_cons.mp hc with rfl | hc2
      · exact ha
      · exact hacc c hc2

lemma pySplitGo_mem (s : Str) : ∀ acc w : Str, w ∈ pySplitGo s acc →
    ∀ c ∈ w, c ∈ s ∨ c ∈ acc := by
  induction s with
  | nil =>
    intro acc w hw c hc
    simp only [pySplitGo] at hw
    by_cases hae : acc.isEmpty
    · rw [if_pos hae] at hw
      simp at hw
    · rw [if_neg hae] at hw
      simp only [List.mem_singleton] at hw
      subst hw
      exact Or.inr (List.mem_reverse.mp hc)
  | cons a as ih =>
    intro acc w hw c hc
    simp only [pySplitGo] at hw
    cases ha : isWs a with
    | true =>
      rw [ha] at hw
      simp only [if_true] at hw
      by_cases hae : acc.isEmpty
      · rw [if_pos hae] at hw
        rcases ih [] w hw c hc with h | h
        · exact Or.inl (List.mem_cons_of_mem _ h)
        · simp at h
      · rw [if_neg hae] at hw
        rcases List.mem_cons.mp hw with rfl | hw2
        · exact Or.inr (List.mem_reverse.mp hc)
        · rcases ih [] w hw2 c hc with h | h
          · exact Or.inl (List.mem_cons_of_mem _ h)
          · simp at h
    | false =>
      rw [ha] at hw
      simp only [Bool.false_eq_true, if_false] at hw
      rcases ih (a :: acc) w hw c hc with h | h
      · exact Or.inl (List.mem_cons_of_mem _ h)
      · rcases List.mem_cons.mp h with rfl | h2
        · exact Or.inl (List.mem_cons_self _ _)
        · exact Or.inr h2

lemma mem_joinSpace (ws : List Str) (c : Char) (h : c ∈ joinSpace ws) :
    c = ' ' ∨ ∃ w ∈ ws, c ∈ w := by
  induction ws with
  | nil => simp [joinSpace] at h
  | cons w rest ih =>
    cases rest with
    | nil =>
      exact Or.inr ⟨w, List.mem_cons_self _ _, by simpa [joinSpace] using h⟩
    | cons w2 rest2 =>
      have hj : joinSpace (w :: w2 :: rest2) =
          w ++ ' ' :: joinSpace (w2 :: rest2) := rfl
      rw [hj] at h
      rcases List.mem_append.mp h with h1 | h1
      · exact Or.inr ⟨w, List.mem_cons_self _ _, h1⟩
      · rcases List.mem_cons.mp h1 with rfl | h2
        · exact Or.inl rfl
        · rcases ih h2 with h3 | ⟨w3, hw3, hc3⟩
          · exact Or.inl h3
          · exact Or.inr ⟨w3, List.mem_cons_of_mem _ hw3, hc3⟩

lemma joinSpace_ne_nil (ws : List Str) (hne : ws ≠ [])
    (hw : ∀ w ∈ ws, w ≠ []) : joinSpace ws ≠ [] := by
  cases ws with
  | nil => exact absurd rfl hne
  | cons w rest =>
    cases rest with
    | nil => simpa [joinSpace] using hw w (List.mem_cons_self _ _)
    | cons w2 rest2 =>
      have hj : joinSpace (w :: w2 :: rest2) =
          w ++ ' ' :: joinSpace (w2 :: rest2) := rfl
      rw [hj]
      simp

lemma joinSpace_head (ws : List Str)
    (hgood : ∀ w ∈ ws, w ≠ [] ∧ ∀ c ∈ w, isWs c = false) :
    ∀ x, (joinSpace ws).head? = some x → isWs x = false := by
  cases ws with
  | nil =>
    intro x hx
    simp [joinSpace] at hx
  | cons w rest =>
    intro x hx
    have hw := hgood w (List.mem_cons_self _ _)
    have hhead : (joinSpace (w :: rest)).head? = w.head? := by
      cases rest with
      | nil => rfl
      | cons w2 rest2 =>
        have hj : joinSpace (w :: w2 :: rest2) =
            w ++ ' ' :: joinSpace (w2 :: rest2) := rfl
        rw [hj]
        cases w with
        | nil => exact absurd rfl hw.1
        | cons a as => rfl
    rw [hhead] at hx
    cases w with
    | nil => exact absurd rfl hw.1
    | cons a as =>
      simp only [List.head?_cons, Option.some.injEq] at hx
      subst hx
      exact hw.2 _ (List.mem_cons_self _ _)

lemma mem_of_getLast?_eq (l : Str) (x : Char) (h : l.getLast? = some x) :
    x ∈ l := by
  induction l with
  | nil => simp at h
  | cons a as ih =>
    cases as with
    | nil =>
      simp only [List.getLast?_singleton, Option.some.injEq] at h
      subst h
      exact List.mem_cons_self _ _
    | cons b bs =>
      rw [List.getLast?_cons_cons] at h
      exact List.mem_cons_of_mem _ (ih h)

lemma getLast?_append_cons (l : Str) (a : Char) (t : Str) :
    (l ++ a :: t).getLast? = (a :: t).getLast? := by
  induction l with
  | nil => rfl
  | cons b bs ih =>
    cases hh : bs ++ a :: t with
    | nil => simp at hh
    | cons u us =>
      rw [List.cons_append, hh, List.getLast?_cons_cons, ← hh, ih]

lemma joinSpace_getLast (ws : List Str)
    (hgood : ∀ w ∈ ws, w ≠ [] ∧ ∀ c ∈ w, isWs c = false) :
    ∀ x, (joinSpace ws).getLast? = some x → isWs x = false := by
  induction ws with
  | nil =>
    intro x hx
    simp [joinSpace] at hx
  | cons w rest ih =>
    intro x hx
    cases rest with
    | nil =>
      have hw := hgood w (List.mem_cons_self _ _)
      rw [show joinSpace [w] = w from rfl] at hx
      exact hw.2 x (mem_of_getLast?_eq w x hx)
    | cons w2 rest2 =>
      have hj : joinSpace (w :: w2 :: rest2) =
          w ++ ' ' :: joinSpace (w2 :: rest2) := rfl
      rw [hj] at hx
      have hne : joinSpace (w2 :: rest2) ≠ [] :=
        joinSpace_ne_nil _ (by simp)
          (fun w' hw' => (hgood w' (List.mem_cons_of_mem _ hw')).1)
      rw [getLast?_append_cons] at hx
      cases hjs : joinSpace (w2 :: rest2) with
      | nil => exact absurd hjs hne
      | cons j js =>
        rw [hjs, List.getLast?_cons_cons, ← hjs] at hx
        exact ih (fun w' hw' => hgood w' (List.mem_cons_of_mem _ hw')) x hx

lemma mem_fixOne (p t : Str) (c : Char) (h : c ∈ fixOne p t) :
    c ∈ "brgy ".toList ∨ c ∈ t := by
  unfold fixOne at h
  by_cases hp : p.isPrefixOf t
  · rw [if_pos hp] at h
    rcases List.mem_append.mp h with h1 | h1
    · exact Or.inl h1
    · exact Or.inr (List.drop_subset _ _ h1)
  · rw [if_neg hp] at h
    exact Or.inr h

lemma mem_fixBrgy (t : Str) (c : Char) (h : c ∈ fixBrgy t) :
    c ∈ "brgy ".toList ∨ c ∈ t := by
  unfold fixBrgy at h
  rcases mem_fixOne _ _ _ h with h1 | h1
  · exact Or.inl h1
  rcases mem_fixOne _ _ _ h1 with h2 | h2
  · exact Or.inl h2
  rcases mem_fixOne _ _ _ h2 with h3 | h3
  · exact Or.inl h3
  · exact Or.inr h3

lemma pyStrip_subset (s : Str) (c : Char) (h : c ∈ pyStrip s) : c ∈ s := by
  unfold pyStrip at h
  rw [List.mem_reverse] at h
  have h2 := (List.dropWhile_sublist isWs).subset h
  rw [List.mem_reverse] at h2
  exact (List.dropWhile_sublist isWs).subset h2

lemma lowerChar_mem_pyLower (s : Str) (c : Char) (h : c ∈ pyLower s) :
    lowerChar c = c := by
  unfold pyLower at h
  obtain ⟨a, _, ha⟩ := List.mem_map.mp h
  rw [← ha]
  exact lowerChar_idem a

lemma lowerChar_mem_normalize (raw : Str) (c : Char)
    (h : c ∈ normalize_location raw) : lowerChar c = c := by
  rcases mem_joinSpace _ _ h with rfl | ⟨w, hw, hc⟩
  · rfl
  · rcases pySplitGo_mem _ [] w hw c hc with h2 | h2
    · rcases mem_fixBrgy _ _ h2 with h3 | h3
      · fin_cases h3 <;> rfl
      · exact lowerChar_mem_pyLower raw c (pyStrip_subset _ c h3)
    · simp at h2

lemma pyLower_normalize (raw : Str) :
    pyLower (normalize_location raw) = normalize_location raw := by
  unfold pyLower
  calc (normalize_location raw).map lowerChar
      = (normalize_location raw).map id :=
        List.map_congr_left (fun c hc => lowerChar_mem_normalize raw c hc)
    _ = normalize_location raw := List.map_id _

lemma pyStrip_normalize (raw : Str) :
    pyStrip (normalize_location raw) = normalize_location raw :=
  strip_eq_self _
    (joinSpace_head _ (pySplitGo_words _ [] (by simp)))
    (joinSpace_getLast _ (pySplitGo_words _ [] (by simp)))

/-- Claim C7: counterexample — the resolver itself normalizes cache keys
only by lower-casing and trimming: two inputs that differ only in internal
whitespace (or only in barangay-prefix spelling) produce different geocoder
cache keys, and the first misses a cache holding the second, even though
the parser's `normalize_location` sends both to the same string. -/
theorem C7_resolver_key_counterexample :
    normalize_location "cebu  city".toList = normalize_location "cebu city".toList ∧
    geoKey "cebu  city".toList ≠ geoKey "cebu city".toList ∧
    lookup_cache (CacheFile.stored [("cebu city".toList, ⟨1, 2⟩)])
      "cebu  city".toList = Except.ok none ∧
    normalize_location "barangay lahug".toList = normalize_location "brgy lahug".toList ∧
    geoKey "barangay lahug".toList ≠ geoKey "brgy lahug".toList := by
  exact ⟨by decide, by decide, by rfl, by decide, by decide⟩

/-- Claim C7 (amended): lower-casing, trimming, whitespace collapsing and
barangay canonicalization are performed by the parser's
`normalize_location` before the resolver is invoked; the resolver's own key
normalization is lower-case plus trim only, and it leaves the
parser-normalized text unchanged, so every call routed through the parser
uses the `normalize_location` image as its cache key — stable across case,
internal whitespace, and the spellings "barangay ", "bgy ", "bgy. " of the
prefix, as the concrete normalizations show. -/
theorem C7_normalized_key_stability :
    (∀ raw : Str, geoKey (normalize_location raw) = normalize_location raw) ∧
    (normalize_location "Barangay  Lahug".toList = "brgy lahug".toList ∧
     normalize_location "bgy lahug".toList = "brgy lahug".toList ∧
     normalize_location "bgy. lahug".toList = "brgy lahug".toList ∧
     normalize_location "  brgy   LAHUG ".toList = "brgy lahug".toList) := by
  constructor
  · intro raw
    unfold geoKey
    rw [pyLower_normalize, pyStrip_normalize]
  · refine ⟨?_, ?_, ?_, ?_⟩ <;> decide

end FloodPH
